import Mathlib

/-!
Verification development for the SVNL powerlifting results scraper.

This file shallowly embeds the scraper's caching/extraction core
(`src/cache.ts`, the caching portion of `src/scraper.ts`), the
per-cell/per-field parsing helpers of the competition page parser
(`parseAttempt`, `parseAttempts`, the weight-class normalization inside
`parseLifters`, and the equipment-based competition split of
`parseCompetitionPage`) and the validation rules of `src/cli/validate.ts`,
and proves the specified properties about them.

Modelling conventions:
- JavaScript strings are Lean `String`s; the handful of string builtins the
  code uses (`trim`, `toLowerCase`, `includes`, one-shot `replace`,
  `Array.join`) are re-implemented structurally over `List Char` so that
  concrete runs kernel-reduce.
- JavaScript numbers are modelled as `ℚ` (ideal decimal arithmetic; the
  weights handled by the scraper are small decimal kilogram values).
- The external DOM library is abstracted to the record shapes the code
  reads from it: a table has rows (flattened `textContent`) and a
  serialized `outerHTML`; an attempt cell has `textContent` and
  `innerHTML`.
- Filesystem reads are a three-valued `FileRead` (missing / unreadable /
  content); the cache directory is a pair of per-competition-id maps.
- The external sha256 digest is modelled as an injective tagging function
  producing a nonempty string (the spec only requires a digest
  "sufficient to detect any byte change", and hex digests are nonempty).
-/

/-! ## JavaScript string primitives, modelled over `List Char` -/

/-- Model of `String.prototype.trim` on the character list. -/
def jsTrimL (l : List Char) : List Char :=
  ((l.dropWhile Char.isWhitespace).reverse.dropWhile Char.isWhitespace).reverse

/-- Model of `String.prototype.trim`. -/
def jsTrim (s : String) : String := ⟨jsTrimL s.data⟩

/-- Model of `str.replace(/\s/g, "")`: remove every whitespace character. -/
def stripWhitespace (s : String) : String := ⟨s.data.filter (fun c => !c.isWhitespace)⟩

/-- Character-list test: does `p` lead `l`? (helper for substring search). -/
def leadsList : List Char → List Char → Bool
  | [], _ => true
  | _ :: _, [] => false
  | p :: ps, c :: cs => p == c && leadsList ps cs

/-- Does `pat` occur contiguously inside `l`? (helper for `includes`). -/
def hasInfixL (l pat : List Char) : Bool :=
  match l with
  | [] => leadsList pat []
  | _ :: rest => leadsList pat l || hasInfixL rest pat

/-- Model of `String.prototype.includes`. -/
def strContains (s pat : String) : Bool := hasInfixL s.data pat.data

/-- Model of `String.prototype.toLowerCase` (ASCII range, which covers the
Finnish header tokens the code searches for). -/
def jsToLower (s : String) : String := ⟨s.data.map Char.toLower⟩

/-- Model of the one-shot `str.replace(",", ".")`: only the first comma is
replaced. -/
def replaceFirstCommaL : List Char → List Char
  | [] => []
  | c :: r => if c = ',' then '.' :: r else c :: replaceFirstCommaL r

/-- Model of `str.replace(",", ".")` on strings. -/
def replaceFirstComma (s : String) : String := ⟨replaceFirstCommaL s.data⟩

/-- Model of `Array.prototype.join(sep)`. -/
def joinSep (sep : String) : List String → String
  | [] => ""
  | [x] => x
  | x :: rest => x ++ sep ++ joinSep sep rest

/-! ## Model of the JavaScript `parseFloat` builtin

`parseFloat` parses the longest numeric literal at the start of the string
(after leading whitespace): optional sign, decimal digits with an optional
fractional part, and an optional well-formed exponent; trailing garbage is
ignored and a string with no leading numeric literal yields `NaN`
(modelled as `none`). `Infinity` literals are not modelled — the scraper
only ever feeds it table-cell text. -/

/-- Numeric value of a digit run. -/
def digitsVal (ds : List Char) : Nat := ds.foldl (fun n c => 10 * n + (c.toNat - 48)) 0

/-- Parse the mantissa `digits [. digits]` at the head of `l`; returns the
value and the rest of the input. -/
def parseMantissa (l : List Char) : Option (ℚ × List Char) :=
  let ds := l.takeWhile Char.isDigit
  let rest := l.dropWhile Char.isDigit
  match rest with
  | '.' :: r =>
    let fs := r.takeWhile Char.isDigit
    if ds.isEmpty && fs.isEmpty then none
    else some ((digitsVal ds : ℚ) + (digitsVal fs : ℚ) / (10 : ℚ) ^ fs.length,
               r.dropWhile Char.isDigit)
  | _ =>
    if ds.isEmpty then none else some ((digitsVal ds : ℚ), rest)

/-- Scale a mantissa by a parsed exponent digit run (no-op when the run is
empty, mirroring how `parseFloat` ignores a malformed exponent). -/
def expScale (m : ℚ) (neg : Bool) (l : List Char) : ℚ :=
  let ds := l.takeWhile Char.isDigit
  if ds.isEmpty then m
  else if neg then m / (10 : ℚ) ^ digitsVal ds else m * (10 : ℚ) ^ digitsVal ds

/-- Apply an optional exponent suffix `e[+-]?digits` to a mantissa. -/
def applyExponent (m : ℚ) (l : List Char) : ℚ :=
  match l with
  | 'e' :: '+' :: r => expScale m false r
  | 'e' :: '-' :: r => expScale m true r
  | 'e' :: r => expScale m false r
  | 'E' :: '+' :: r => expScale m false r
  | 'E' :: '-' :: r => expScale m true r
  | 'E' :: r => expScale m false r
  | _ => m

/-- Model of `parseFloat`. -/
def jsParseFloat (s : String) : Option ℚ :=
  let l := s.data.dropWhile Char.isWhitespace
  match l with
  | '+' :: r => (parseMantissa r).map (fun p => applyExponent p.1 p.2)
  | '-' :: r => (parseMantissa r).map (fun p => -(applyExponent p.1 p.2))
  | _ => (parseMantissa l).map (fun p => applyExponent p.1 p.2)

/-- Embedding of `parseNumber` (`src/parser.ts`): handle the Finnish decimal
comma, treat `null`/`undefined`/empty input and an unparseable cell as zero
(the JS source reads `if (!text) return 0; return
parseFloat(text.trim().replace(",", ".")) || 0`). -/
def parseNumber (text : Option String) : ℚ :=
  match text with
  | none => 0
  | some t => if t = "" then 0 else (jsParseFloat (replaceFirstComma (jsTrim t))).getD 0

/-! ## Attempt-cell parsing (`parseAttempt` / `parseAttempts`) -/

/-- One attempt: weight in kg and a success flag (`src/cli/types.ts`). -/
structure Attempt where
  weight : ℚ
  success : Bool
deriving DecidableEq

/-- The slice of a DOM element that `parseAttempt` reads: flattened text and
serialized inner markup. -/
structure Cell where
  textContent : String
  innerHTML : String
deriving DecidableEq

/-- Embedding of `parseAttempt` (`src/parser.ts`): a missing cell, or a cell
reading empty/"-"/"0" after whitespace removal, is a no-attempt; otherwise
the weight is the absolute value of the parsed number and success is
`weight > 0 && !strikethrough`. -/
def parseAttempt (cell : Option Cell) : Attempt :=
  match cell with
  | none => ⟨0, false⟩
  | some c =>
    let text := stripWhitespace (jsTrim c.textContent)
    if text = "" ∨ text = "-" ∨ text = "0" then ⟨0, false⟩
    else
      let weight := |parseNumber (some text)|
      let hasStrikethrough := strContains c.innerHTML "line-through"
      ⟨weight, decide (0 < weight) && !hasStrikethrough⟩

/-- A lift's three attempts (`[Attempt, Attempt, Attempt]` in the source). -/
abbrev Lift3 := Attempt × Attempt × Attempt

/-- The three attempts as a list, in order. -/
def lift3ToList (t : Lift3) : List Attempt := [t.1, t.2.1, t.2.2]

/-- Embedding of `parseAttempts` (`src/parser.ts`): three attempt cells from
the given start column, zero-filled failures when the lift's columns were
not detected; out-of-range cells are `undefined` and parse as no-attempts. -/
def parseAttempts (cells : List Cell) (startIndex : Option Nat) : Lift3 :=
  match startIndex with
  | none => (⟨0, false⟩, ⟨0, false⟩, ⟨0, false⟩)
  | some i => (parseAttempt (cells.get? i), parseAttempt (cells.get? (i + 1)),
               parseAttempt (cells.get? (i + 2)))

/-! ## Weight-class normalization (inside `parseLifters`) -/

/-- Does the character match the `[MN]` class of the source's regexes,
case-insensitively? -/
def isGenderChar (c : Char) : Bool := c == 'M' || c == 'N' || c == 'm' || c == 'n'

/-- Model of `str.replace(/[MN]\d{2}/gi, "")`: delete every (leftmost,
non-overlapping) occurrence of a gender letter followed by two digits. -/
def removeGenderAgeTokens : List Char → List Char
  | c :: d1 :: d2 :: rest2 =>
    if isGenderChar c && d1.isDigit && d2.isDigit then removeGenderAgeTokens rest2
    else c :: removeGenderAgeTokens (d1 :: d2 :: rest2)
  | c :: rest => c :: removeGenderAgeTokens rest
  | [] => []

/-- Model of matching `/^(\d+(?:\.\d+)?)(\+)?/`: the leading numeric token
and whether an explicit `+` follows it. -/
def matchLeadingNumberL (l : List Char) : Option (List Char × Bool) :=
  let ds := l.takeWhile Char.isDigit
  let rest := l.dropWhile Char.isDigit
  if ds.isEmpty then none
  else
    let fracRest : List Char × List Char :=
      match rest with
      | '.' :: r =>
        let fs := r.takeWhile Char.isDigit
        if fs.isEmpty then ([], rest) else ('.' :: fs, r.dropWhile Char.isDigit)
      | _ => ([], rest)
    let plus : Bool :=
      match fracRest.2 with
      | '+' :: _ => true
      | _ => false
    some (ds ++ fracRest.1, plus)

/-- Model of matching `/^[MN]\s*(\d+(?:\.\d+)?)(\+)?/i`: a gender letter,
optional whitespace, then the numeric token. -/
def matchGenderNumberL (l : List Char) : Option (List Char × Bool) :=
  match l with
  | [] => none
  | c :: rest =>
    if isGenderChar c then matchLeadingNumberL (rest.dropWhile Char.isWhitespace) else none

/-- Embedding of the weight-class cell normalization in `parseLifters`
(`src/parser.ts`): strip `[MN]\d{2}` age-class tokens, match the leading
numeric class (falling back to a gender-letter-prefixed match on the raw
text), and render `num+` as-is or `-num` otherwise; unmatched cells yield
the empty class. The input is the trimmed cell text. -/
def parseWeightClass (weightClassText : String) : String :=
  let clean := jsTrimL (removeGenderAgeTokens weightClassText.data)
  match matchLeadingNumberL clean with
  | some (num, plus) => if plus then ⟨num ++ ['+']⟩ else ⟨'-' :: num⟩
  | none =>
    match matchGenderNumberL weightClassText.data with
    | some (num, plus) => if plus then ⟨num ++ ['+']⟩ else ⟨'-' :: num⟩
    | none => ""

/-! ## Cache layer (`src/cache.ts`) -/

/-- Outcome of trying to read one cache file: absent, present but failing to
read, or readable content. -/
inductive FileRead where
  | missing
  | unreadable
  | content (s : String)
deriving DecidableEq

/-- The cache directory: a content file and a hash file per competition id. -/
structure CacheState where
  htmlFile : String → FileRead
  hashFile : String → FileRead

/-- Model of the external sha256 digest used by `computeHash`
(`src/cache.ts`): an injective tag producing a nonempty string, which is
all the spec requires of it (a digest "sufficient to detect any byte
change"; real hex digests are nonempty). -/
def computeHash (html : String) : String := ⟨'#' :: html.data⟩

/-- Embedding of `getHtmlHash` (`src/cache.ts`): `null` when the hash file
is missing, and `null` again when reading it throws (the self-healing
catch). -/
def getHtmlHash (st : CacheState) (competitionId : String) : Option String :=
  match st.hashFile competitionId with
  | .missing => none
  | .unreadable => none
  | .content s => some s

/-- Embedding of `readHtmlCache` (`src/cache.ts`). -/
def readHtmlCache (st : CacheState) (competitionId : String) : Option String :=
  match st.htmlFile competitionId with
  | .missing => none
  | .unreadable => none
  | .content s => some s

/-- Embedding of `writeHtmlCache` (`src/cache.ts`): both artifacts are
written to temporary paths and renamed into place; at this abstraction that
is one atomic replacement of the pair for the given id. -/
def writeHtmlCache (st : CacheState) (competitionId tableHtml hash : String) : CacheState :=
  { htmlFile := fun k => if k = competitionId then .content tableHtml else st.htmlFile k
    hashFile := fun k => if k = competitionId then .content hash else st.hashFile k }

/-- The cache-gate outcome (`shouldScrape`'s return shape). -/
structure ScrapeDecision where
  shouldScrape : Bool
  reason : String
deriving DecidableEq

/-- Embedding of `shouldScrape` (`src/cache.ts`). The source's
`if (!cachedHash)` is a JS falsy test: it fires on `null` and on the empty
string alike. -/
def shouldScrape (st : CacheState) (competitionId newTableHtml : String) : ScrapeDecision :=
  match getHtmlHash st competitionId with
  | none => ⟨true, "no cache"⟩
  | some cachedHash =>
    if cachedHash = "" then ⟨true, "no cache"⟩
    else if computeHash newTableHtml ≠ cachedHash then ⟨true, "content changed"⟩
    else ⟨false, "unchanged"⟩

/-! ## Table extraction (`extractCompetitionTables`, `src/cache.ts`) -/

/-- A table row as the extractor sees it: its flattened text. -/
structure TableRow where
  textContent : String
deriving DecidableEq

/-- A table as the extractor sees it: rows plus serialized markup. -/
structure HtmlTable where
  rowList : List TableRow
  outerHTML : String
deriving DecidableEq

/-- A parsed document, for the extractor: its tables in document order. -/
structure HtmlDoc where
  tables : List HtmlTable
deriving DecidableEq

/-- One row's test in `extractCompetitionTables`: lowercased flattened text
contains both header tokens. -/
def rowHasNimiSeura (r : TableRow) : Bool :=
  strContains (jsToLower r.textContent) "nimi" && strContains (jsToLower r.textContent) "seura"

/-- A table qualifies as a result table when some row passes the token test. -/
def tableHasResults (t : HtmlTable) : Bool := t.rowList.any rowHasNimiSeura

/-- Embedding of `extractCompetitionTables` (`src/cache.ts`): concatenate
the qualifying tables' markup joined by newlines, in document order, or
throw when none qualifies. -/
def extractCompetitionTables (doc : HtmlDoc) : Except String String :=
  let relevantTables := (doc.tables.filter tableHasResults).map (fun t => t.outerHTML)
  if relevantTables.isEmpty then Except.error "No competition tables found in HTML"
  else Except.ok (joinSep "\n" relevantTables)

/-! ## The caching portion of `scrapeCompetition` (`src/scraper.ts`) -/

/-- What the caching portion of `scrapeCompetition` produces: the fragment
handed to the parser, the skip/cache flags recorded in the metadata, the
cache state afterwards, and whether `writeHtmlCache` ran. -/
structure ScrapeFlowResult where
  tableHtml : String
  skipped : Bool
  usedCache : Bool
  cache : CacheState
  wroteCache : Bool

/-- Embedding of `scrapeCompetition`'s extract/gate/write sequence
(`src/scraper.ts` lines 178-207): extract the fragment (on any failure the
catch falls back to parsing the full page markup and touches no cache);
when caching is enabled and not forced, consult the gate and serve the
cached fragment on an unchanged decision — the source's `if (cachedHtml)`
is a JS truthiness test, so a missing, unreadable, or empty cached
fragment is not served; on every non-served path persist the fragment and
its hash before parsing. -/
def scrapeCacheFlow (st : CacheState) (competitionId html : String) (doc : HtmlDoc)
    (useCache force : Bool) : ScrapeFlowResult :=
  match extractCompetitionTables doc with
  | .error _ => ⟨html, false, false, st, false⟩
  | .ok tableHtml =>
    let served : Option String :=
      if useCache && !force then
        if (shouldScrape st competitionId tableHtml).shouldScrape then none
        else
          match readHtmlCache st competitionId with
          | some cachedHtml => if cachedHtml = "" then none else some cachedHtml
          | none => none
      else none
    match served with
    | some cachedHtml => ⟨cachedHtml, true, true, st, false⟩
    | none =>
      ⟨tableHtml, false, false,
       writeHtmlCache st competitionId tableHtml (computeHash tableHtml), true⟩

/-! ## Data model for lifters and competitions (`src/cli/types.ts`) -/

/-- Gender marker. -/
inductive Gender where
  | M
  | F
deriving DecidableEq

/-- Equipment category. -/
inductive Equipment where
  | raw
  | equipped
deriving DecidableEq

/-- Event type: full three-lift or bench-only. -/
inductive EventType where
  | sbd
  | b
deriving DecidableEq

/-- Competition category. -/
inductive Category where
  | nationals
  | local
deriving DecidableEq

/-- A lifter record (`src/cli/types.ts`). -/
structure Lifter where
  name : String
  birthYear : Nat
  gender : Gender
  ageClass : Option String
  equipment : Equipment
  weightClass : String
  bodyWeight : ℚ
  club : String
  squat : Lift3
  bench : Lift3
  deadlift : Lift3
  total : ℚ
  points : ℚ
  position : Int
deriving DecidableEq

/-- A competition record (`src/cli/types.ts`). -/
structure Competition where
  id : String
  url : String
  name : String
  date : String
  startDate : Option String
  endDate : Option String
  location : Option String
  eventType : Option EventType
  category : Category
deriving DecidableEq

/-- One output result group (`CompetitionResult` in `src/cli/types.ts`; the
optional scrape metadata annotation is orchestration state and not
modelled). -/
structure CompetitionResult where
  competition : Competition
  lifters : List Lifter
deriving DecidableEq

/-! ## Validation rules (`src/cli/validate.ts`) -/

/-- The structured `details` payload of a warning, one constructor per
rule-specific record shape in the source. -/
inductive WarningDetails where
  | totalMismatch (calculated recorded : ℚ) (eventType : EventType) (bests : Option (ℚ × ℚ × ℚ))
  | missingField (field : String)
  | unusualLiftWeight (weight minW maxW : ℚ)
  | unusualBodyWeight (bodyWeight minW maxW : ℚ)
  | progressionDrop (lift : String) (attempt1 : Nat) (weight1 : ℚ) (attempt2 : Nat) (weight2 : ℚ)
deriving DecidableEq

/-- A validation warning. The constant `severity: "warning"` field, the
human-readable `message` template and the `competitionId` back-reference
stamped on by `validateLifter` are presentation metadata and are not
modelled; the rule id and detail payload are. -/
structure ValidationWarning where
  rule : String
  lifterName : Option String
  details : WarningDetails
deriving DecidableEq

/-- Embedding of `getBestLift` (`src/cli/validate.ts`):
`Math.max(...attempts.filter(success).map(weight), 0)`. -/
def getBestLift (attempts : Lift3) : ℚ :=
  (((lift3ToList attempts).filter (fun a => a.success)).map (fun a => a.weight)).foldr max 0

/-- Embedding of `validateTotalCalculation` (`src/cli/validate.ts`). -/
def validateTotalCalculation (lifter : Lifter) (eventType : EventType) :
    Option ValidationWarning :=
  if lifter.total = 0 then none
  else
    let bestSquat := if eventType = .sbd then getBestLift lifter.squat else 0
    let bestBench := getBestLift lifter.bench
    let bestDeadlift := if eventType = .sbd then getBestLift lifter.deadlift else 0
    let calculated := bestSquat + bestBench + bestDeadlift
    if calculated ≠ lifter.total then
      some { rule := "total_calculation", lifterName := some lifter.name,
             details := WarningDetails.totalMismatch calculated lifter.total eventType
               (if eventType = .b then none
                else some (bestSquat, bestBench, bestDeadlift)) }
    else none

/-- The claim-side expected total: the sum over applicable lifts of the best
successful attempt, squat and deadlift contributing zero for a bench-only
event. Stated from the spec's words, to be compared with the embedded rule. -/
def expectedTotal (lifter : Lifter) (eventType : EventType) : ℚ :=
  (if eventType = .sbd then getBestLift lifter.squat else 0) + getBestLift lifter.bench +
    (if eventType = .sbd then getBestLift lifter.deadlift else 0)

/-- The source's attempt list with 1-based attempt numbers (the
`map((a, idx) => ...)` step of `checkLiftProgression`). -/
def numberedAttempts (attempts : Lift3) : List (Attempt × Nat) :=
  [(attempts.1, 1), (attempts.2.1, 2), (attempts.2.2, 3)]

/-- The `filter((a) => a.success && a.weight > 0)` step of
`checkLiftProgression`. -/
def successfulNumberedAttempts (attempts : Lift3) : List (Attempt × Nat) :=
  (numberedAttempts attempts).filter (fun p => p.1.success && decide (0 < p.1.weight))

/-- Adjacent pairs of a list (the `for (let i = 1; ...)` loop shape). -/
def adjPairs {α : Type} : List α → List (α × α)
  | a :: b :: t => (a, b) :: adjPairs (b :: t)
  | _ => []

/-- Embedding of the inner `checkLiftProgression` of
`validateAttemptProgression` (`src/cli/validate.ts`): compare consecutive
successful attempts and warn on each drop. -/
def checkLiftProgression (lifterName : String) (attempts : Lift3) (liftName : String) :
    List ValidationWarning :=
  (adjPairs (successfulNumberedAttempts attempts)).filterMap (fun pc =>
    if pc.2.1.weight < pc.1.1.weight then
      some { rule := "attempt_progression", lifterName := some lifterName,
             details := WarningDetails.progressionDrop liftName pc.1.2 pc.1.1.weight
               pc.2.2 pc.2.1.weight }
    else none)

/-- Embedding of `validateAttemptProgression` (`src/cli/validate.ts`). -/
def validateAttemptProgression (lifter : Lifter) : List ValidationWarning :=
  checkLiftProgression lifter.name lifter.squat "Squat" ++
    checkLiftProgression lifter.name lifter.bench "Bench" ++
      checkLiftProgression lifter.name lifter.deadlift "Deadlift"

/-- The claim-side view of one lift: the weights of its successful attempts,
in attempt order (failed attempts excluded). -/
def successfulWeights (attempts : Lift3) : List ℚ :=
  ((lift3ToList attempts).filter (fun a => a.success)).map (fun a => a.weight)

/-- All nine attempts of a lifter, in lift order. -/
def lifterAttempts (lifter : Lifter) : List Attempt :=
  lift3ToList lifter.squat ++ lift3ToList lifter.bench ++ lift3ToList lifter.deadlift

/-! ## Equipment split of `parseCompetitionPage` (`src/parser.ts`) -/

/-- The string used in the suffixed competition id (the union value itself). -/
def Equipment.toKey : Equipment → String
  | .raw => "raw"
  | .equipped => "equipped"

/-- The display label used in the suffixed competition name. -/
def Equipment.label : Equipment → String
  | .raw => "Classic"
  | .equipped => "Equipped"

/-- Embedding of the "varuste" override in `parseCompetitionPage`: a
competition whose (lowercased) name mentions the equipped marker forces
every lifter to equipped. -/
def liftersAfterEquipmentOverride (competitionName : String) (lifters : List Lifter) :
    List Lifter :=
  if strContains (jsToLower competitionName) "varuste" then
    lifters.map (fun l => { l with equipment := Equipment.equipped })
  else lifters

/-- Embedding of `detectEventType` (`src/parser.ts`): `sbd` as soon as any
lifter has a positive-weight squat or deadlift attempt, else bench-only. -/
def detectEventType (lifters : List Lifter) : EventType :=
  if lifters.any (fun l =>
      (lift3ToList l.squat).any (fun a => decide (0 < a.weight)) ||
        (lift3ToList l.deadlift).any (fun a => decide (0 < a.weight))) then
    .sbd
  else .b

/-- Key insertion with JS `Map` semantics: first insertion fixes the order. -/
def insertEquipmentKey (ks : List Equipment) (e : Equipment) : List Equipment :=
  if e ∈ ks then ks else ks ++ [e]

/-- The equipment keys of the `byEquipment` map, in insertion order. -/
def equipmentKeys (lifters : List Lifter) : List Equipment :=
  lifters.foldl (fun ks l => insertEquipmentKey ks l.equipment) []

/-- The `byEquipment` map as an insertion-ordered association list; each
group keeps the lifters' original order, as the `push` loop does. -/
def groupByEquipment (lifters : List Lifter) : List (Equipment × List Lifter) :=
  (equipmentKeys lifters).map (fun e => (e, lifters.filter (fun l => l.equipment = e)))

/-- Embedding of the tail of `parseCompetitionPage` (`src/parser.ts` lines
16-49): apply the "varuste" override, detect the event type, group by
equipment, and either return the single unsplit result or one
equipment-suffixed result per category. -/
def splitCompetitionByEquipment (parsedCompetition : Competition)
    (parsedLifters : List Lifter) : List CompetitionResult :=
  let lifters := liftersAfterEquipmentOverride parsedCompetition.name parsedLifters
  let eventType := detectEventType lifters
  let groups := groupByEquipment lifters
  if groups.length ≤ 1 then
    [{ competition := { parsedCompetition with eventType := some eventType },
       lifters := lifters }]
  else
    groups.map (fun g =>
      { competition :=
          { parsedCompetition with
            id := parsedCompetition.id ++ "-" ++ g.1.toKey,
            name := parsedCompetition.name ++ " (" ++ g.1.label ++ ")",
            eventType := some eventType },
        lifters := g.2 })

/-! ## Concrete fixtures used by the per-claim examples and witnesses -/

/-- A lift with no attempts taken. -/
def noLift : Lift3 := (⟨0, false⟩, ⟨0, false⟩, ⟨0, false⟩)

/-- A lift with a single successful attempt of the given weight. -/
def singleLift (w : ℚ) : Lift3 := (⟨w, true⟩, ⟨0, false⟩, ⟨0, false⟩)

/-- A three-lift lifter fixture with the given lifts and recorded total. -/
def exampleLifter (sq bp dl : Lift3) (total : ℚ) : Lifter :=
  { name := "Testi Nostaja", birthYear := 1990, gender := Gender.M, ageClass := none,
    equipment := Equipment.raw, weightClass := "-74", bodyWeight := 73, club := "Seura",
    squat := sq, bench := bp, deadlift := dl, total := total, points := 0, position := 1 }

/-- Successful bests 150/100/180 with recorded total 430. -/
def lifterTotal430 : Lifter :=
  exampleLifter (singleLift 150) (singleLift 100) (singleLift 180) 430

/-- Successful bests 150/100/180 with recorded total 425. -/
def lifterTotal425 : Lifter :=
  exampleLifter (singleLift 150) (singleLift 100) (singleLift 180) 425

/-- Successful squat attempts 100, 95, 110 (one progression drop). -/
def lifterProgressionDrop : Lifter :=
  exampleLifter (⟨100, true⟩, ⟨95, true⟩, ⟨110, true⟩) noLift noLift 0

/-- Successful squat attempts 100, 105, 110 (monotone progression). -/
def lifterProgressionOk : Lifter :=
  exampleLifter (⟨100, true⟩, ⟨105, true⟩, ⟨110, true⟩) noLift noLift 0

/-- A competition fixture. -/
def exampleCompetition : Competition :=
  { id := "svnl-pv-81", url := "", name := "PV-81", date := "30.12.2025",
    startDate := none, endDate := none, location := none, eventType := none,
    category := Category.local }

/-- A single-table document whose one row carries both header tokens. -/
def exampleDoc : HtmlDoc := ⟨[⟨[⟨"Sija Nimi Seura"⟩], "<table>rows</table>"⟩]⟩

/-- The fragment `exampleDoc` extracts to. -/
def exampleFragment : String := "<table>rows</table>"

/-- A cache state for `exampleCompetition.id` whose hash file matches
`exampleFragment` while the content file holds different (stale) bytes. -/
def hitState : CacheState :=
  { htmlFile := fun k => if k = "svnl-pv-81" then .content "stale-cached-table" else .missing,
    hashFile := fun k => if k = "svnl-pv-81" then .content (computeHash exampleFragment)
      else .missing }

/-- A mixed-equipment pair of lifters. -/
def mixedLifters : List Lifter :=
  [exampleLifter noLift noLift noLift 0,
   { exampleLifter noLift noLift noLift 0 with equipment := Equipment.equipped }]

/-! ## Helper lemmas -/

theorem computeHash_ne_empty (s : String) : computeHash s ≠ "" := by
  intro h
  have h2 := congrArg String.data h
  simp [computeHash] at h2

/-! ## Claim C1: the cache-gate decision -/

/-- C1: the cache-gate decision is exactly: no usable prior hash (missing
hash file, unreadable hash file, or — through the source's JS falsy test —
an empty stored hash) yields a scrape with reason "no cache"; a stored hash
differing from the fragment's computed hash yields a scrape with reason
"content changed"; an equal hash yields no scrape with reason "unchanged".
In particular the decision is a skip exactly when a hash was read and
matches, so a cache-read failure always yields a scrape, never a skip. -/
theorem shouldScrape_cache_gate_spec (st : CacheState) (competitionId fragment : String) :
    (getHtmlHash st competitionId = none →
      shouldScrape st competitionId fragment = ⟨true, "no cache"⟩) ∧
    (getHtmlHash st competitionId = some "" →
      shouldScrape st competitionId fragment = ⟨true, "no cache"⟩) ∧
    (∀ h, getHtmlHash st competitionId = some h → h ≠ "" → h ≠ computeHash fragment →
      shouldScrape st competitionId fragment = ⟨true, "content changed"⟩) ∧
    (∀ h, getHtmlHash st competitionId = some h → h = computeHash fragment →
      shouldScrape st competitionId fragment = ⟨false, "unchanged"⟩) ∧
    (st.hashFile competitionId = FileRead.unreadable →
      shouldScrape st competitionId fragment = ⟨true, "no cache"⟩) ∧
    ((shouldScrape st competitionId fragment).shouldScrape = false ↔
      getHtmlHash st competitionId = some (computeHash fragment)) := by
  refine ⟨?_, ?_, ?_, ?_, ?_, ?_⟩
  · intro h
    simp [shouldScrape, h]
  · intro h
    simp [shouldScrape, h]
  · intro h hh hne hdiff
    simp only [shouldScrape, hh]
    rw [if_neg hne, if_pos (fun he => hdiff he.symm)]
  · intro h hh heq
    subst heq
    simp only [shouldScrape, hh]
    rw [if_neg (computeHash_ne_empty fragment)]
    simp
  · intro h
    simp [shouldScrape, getHtmlHash, h]
  · cases hh : getHtmlHash st competitionId with
    | none => simp [shouldScrape, hh]
    | some h =>
      by_cases he : h = ""
      · subst he
        simp [shouldScrape, hh]
        exact fun hc => computeHash_ne_empty fragment hc.symm
      · by_cases hd : computeHash fragment = h
        · subst hd
          simp [shouldScrape, hh, he]
        · simp [shouldScrape, hh, he, hd]
          intro hc
          exact absurd hc.symm hd

/-- C1 witness: a state whose stored hash matches the fragment's hash is
decided as unchanged. -/
theorem shouldScrape_cache_gate_spec_witness :
    shouldScrape hitState "svnl-pv-81" exampleFragment = ⟨false, "unchanged"⟩ :=
  (shouldScrape_cache_gate_spec hitState "svnl-pv-81" exampleFragment).2.2.2.1
    (computeHash exampleFragment) (by decide) rfl

/-! ## Claim C3: caching is idempotent -/

/-- C3: after storing a fragment together with its computed hash for an id,
the cache gate decides "unchanged" for the byte-identical fragment on that
id, and the cached fragment then served is byte-identical to what was
stored. -/
theorem cache_write_read_idempotent (st : CacheState) (competitionId fragment : String) :
    shouldScrape (writeHtmlCache st competitionId fragment (computeHash fragment))
        competitionId fragment = ⟨false, "unchanged"⟩ ∧
    readHtmlCache (writeHtmlCache st competitionId fragment (computeHash fragment))
        competitionId = some fragment := by
  constructor
  · simp [shouldScrape, getHtmlHash, writeHtmlCache, computeHash_ne_empty fragment]
  · simp [readHtmlCache, writeHtmlCache]

/-! ## Claim C2: when the fragment and hash are persisted -/

/-- C2 counterexample: on a cache hit (gate decides "unchanged" and the
cached fragment is readable) `scrapeCompetition` performs no cache write at
all — here the content file still holds stale bytes different from the
canonical fragment after the flow — refuting the claim that the fragment
and its hash are persisted on every successful parse including cache hits. -/
theorem scrapeCacheFlow_hit_counterexample :
    extractCompetitionTables exampleDoc = Except.ok exampleFragment ∧
    (scrapeCacheFlow hitState "svnl-pv-81" "full page markup" exampleDoc true false).skipped
      = true ∧
    (scrapeCacheFlow hitState "svnl-pv-81" "full page markup" exampleDoc true false).wroteCache
      = false ∧
    (scrapeCacheFlow hitState "svnl-pv-81" "full page markup"
        exampleDoc true false).cache.htmlFile "svnl-pv-81"
      = FileRead.content "stale-cached-table" ∧
    "stale-cached-table" ≠ exampleFragment :=
  ⟨rfl, by decide, by decide, by decide, by decide⟩

theorem scrapeCacheFlow_skipped_iff (st : CacheState) (competitionId html : String)
    (doc : HtmlDoc) (useCache force : Bool) (tableHtml : String)
    (hex : extractCompetitionTables doc = Except.ok tableHtml) :
    (scrapeCacheFlow st competitionId html doc useCache force).skipped = true ↔
      useCache = true ∧ force = false ∧
      (shouldScrape st competitionId tableHtml).shouldScrape = false ∧
      ∃ cached, readHtmlCache st competitionId = some cached ∧ cached ≠ "" := by
  simp only [scrapeCacheFlow, hex]
  by_cases hu : (useCache && !force) = true
  · have huc : useCache = true := (Bool.and_eq_true _ _).mp hu |>.1
    have hfc : force = false := by
      have h2 := ((Bool.and_eq_true _ _).mp hu).2
      simpa using h2
    by_cases hg : (shouldScrape st competitionId tableHtml).shouldScrape = true
    · simp [hu, hg]
    · rw [Bool.not_eq_true] at hg
      cases hr : readHtmlCache st competitionId with
      | none => simp [hu, hg, hr]
      | some c =>
        by_cases hc : c = ""
        · subst hc
          simp [hu, hg]
        · simp [hu, hg, hc, huc, hfc]
  · rw [Bool.not_eq_true] at hu
    simp only [hu, Bool.false_eq_true, if_false]
    constructor
    · intro h
      exact absurd h (by simp)
    · rintro ⟨huc, hfc, -⟩
      subst huc
      subst hfc
      simp at hu

/-- C2 (amended): when extraction succeeds, the fragment and its hash are
persisted for the competition id (atomically, modelled as one store update)
exactly on the non-skipped path, and the persisted pair is the canonical
fragment with its computed hash; the flow skips (serving the cached
fragment, writing nothing and leaving the store untouched) precisely when
caching is enabled, not forced, the gate decides the content is unchanged,
and the cached fragment is readable and nonempty (the source's
`if (cachedHtml)` truthiness test) — so a missing, unreadable, or empty
cached fragment still leads to a persist of the fresh fragment. -/
theorem scrapeCacheFlow_persistence (st : CacheState) (competitionId html : String)
    (doc : HtmlDoc) (useCache force : Bool) (tableHtml : String)
    (hex : extractCompetitionTables doc = Except.ok tableHtml) :
    ((scrapeCacheFlow st competitionId html doc useCache force).skipped = false →
      (scrapeCacheFlow st competitionId html doc useCache force).wroteCache = true ∧
      (scrapeCacheFlow st competitionId html doc useCache force).cache.htmlFile competitionId
        = FileRead.content tableHtml ∧
      (scrapeCacheFlow st competitionId html doc useCache force).cache.hashFile competitionId
        = FileRead.content (computeHash tableHtml) ∧
      (scrapeCacheFlow st competitionId html doc useCache force).tableHtml = tableHtml) ∧
    ((scrapeCacheFlow st competitionId html doc useCache force).skipped = true →
      (scrapeCacheFlow st competitionId html doc useCache force).wroteCache = false ∧
      (scrapeCacheFlow st competitionId html doc useCache force).cache = st) ∧
    ((scrapeCacheFlow st competitionId html doc useCache force).skipped = true ↔
      useCache = true ∧ force = false ∧
      (shouldScrape st competitionId tableHtml).shouldScrape = false ∧
      ∃ cached, readHtmlCache st competitionId = some cached ∧ cached ≠ "") := by
  refine ⟨?_, ?_, scrapeCacheFlow_skipped_iff st competitionId html doc useCache force
    tableHtml hex⟩
  · simp only [scrapeCacheFlow, hex]
    cases hserved : (if useCache && !force then
        if (shouldScrape st competitionId tableHtml).shouldScrape then none
        else
          match readHtmlCache st competitionId with
          | some cachedHtml => if cachedHtml = "" then none else some cachedHtml
          | none => none
      else (none : Option String)) with
    | some cachedHtml => exact fun h => by simp at h
    | none => exact fun _ => ⟨rfl, by simp [writeHtmlCache], by simp [writeHtmlCache], rfl⟩
  · simp only [scrapeCacheFlow, hex]
    cases hserved : (if useCache && !force then
        if (shouldScrape st competitionId tableHtml).shouldScrape then none
        else
          match readHtmlCache st competitionId with
          | some cachedHtml => if cachedHtml = "" then none else some cachedHtml
          | none => none
      else (none : Option String)) with
    | some cachedHtml => exact fun _ => ⟨rfl, rfl⟩
    | none => exact fun h => by simp at h

/-- C2 witness: on the concrete cache-hit state no write happens. -/
theorem scrapeCacheFlow_persistence_witness :
    (scrapeCacheFlow hitState "svnl-pv-81" "full page markup" exampleDoc true false).wroteCache
      = false :=
  ((scrapeCacheFlow_persistence hitState "svnl-pv-81" "full page markup" exampleDoc true false
    exampleFragment rfl).2.1 (by decide)).1

/-! ## Claim C4: the table extractor -/

/-- C4: a table qualifies as a result table exactly when some row's
flattened lowercased text contains both the name token and the club token;
the extractor fails exactly when no table qualifies, and on success returns
the qualifying tables' serialized markup joined in document order. -/
theorem extractCompetitionTables_spec (doc : HtmlDoc) :
    (∀ t : HtmlTable, tableHasResults t = true ↔
      ∃ r ∈ t.rowList, strContains (jsToLower r.textContent) "nimi" = true ∧
        strContains (jsToLower r.textContent) "seura" = true) ∧
    (extractCompetitionTables doc = Except.error "No competition tables found in HTML" ↔
      ∀ t ∈ doc.tables, tableHasResults t = false) ∧
    (∀ s, extractCompetitionTables doc = Except.ok s →
      (∃ t ∈ doc.tables, tableHasResults t = true) ∧
      s = joinSep "\n" ((doc.tables.filter tableHasResults).map (fun t => t.outerHTML))) := by
  refine ⟨?_, ?_, ?_⟩
  · intro t
    simp [tableHasResults, List.any_eq_true, rowHasNimiSeura, Bool.and_eq_true]
  · simp only [extractCompetitionTables]
    by_cases hemp : ((doc.tables.filter tableHasResults).map (fun t => t.outerHTML)).isEmpty
    · rw [if_pos hemp]
      simp only [List.isEmpty_iff, List.map_eq_nil_iff, List.filter_eq_nil_iff] at hemp
      simpa using hemp
    · rw [if_neg hemp]
      simp only [List.isEmpty_iff, List.map_eq_nil_iff, List.filter_eq_nil_iff] at hemp
      push_neg at hemp
      obtain ⟨t, ht, hq⟩ := hemp
      constructor
      · intro hcontra
        exact absurd hcontra (by simp)
      · intro hall
        rw [hall t ht] at hq
        exact absurd hq (by simp)
  · intro s hok
    simp only [extractCompetitionTables] at hok
    by_cases hemp : ((doc.tables.filter tableHasResults).map (fun t => t.outerHTML)).isEmpty
    · rw [if_pos hemp] at hok
      exact absurd hok (by simp)
    · rw [if_neg hemp] at hok
      simp only [List.isEmpty_iff, List.map_eq_nil_iff, List.filter_eq_nil_iff] at hemp
      push_neg at hemp
      obtain ⟨t, ht, hq⟩ := hemp
      exact ⟨⟨t, ht, hq⟩, (Except.ok.inj hok).symm⟩

/-- C4 witness: the concrete single-table document qualifies and extracts. -/
theorem extractCompetitionTables_spec_witness :
    ∃ t ∈ exampleDoc.tables, tableHasResults t = true :=
  ((extractCompetitionTables_spec exampleDoc).2.2 exampleFragment rfl).1

/-! ## Claim C5: the total-calculation rule -/

/-- C5: the rule emits nothing when the recorded total is zero; otherwise
it emits exactly one warning precisely when the expected total (sum over
applicable lifts of the best successful attempt, squat and deadlift
contributing zero for bench-only events) differs from the recorded total,
carrying both values in the detail payload; the stated 150/100/180
examples behave as specified. -/
theorem validateTotalCalculation_spec :
    (∀ (lifter : Lifter) (et : EventType),
      (lifter.total = 0 → validateTotalCalculation lifter et = none) ∧
      (lifter.total ≠ 0 → expectedTotal lifter et = lifter.total →
        validateTotalCalculation lifter et = none) ∧
      (lifter.total ≠ 0 → expectedTotal lifter et ≠ lifter.total →
        validateTotalCalculation lifter et = some
          { rule := "total_calculation", lifterName := some lifter.name,
            details := WarningDetails.totalMismatch (expectedTotal lifter et) lifter.total et
              (if et = EventType.b then none
               else some ((if et = EventType.sbd then getBestLift lifter.squat else 0),
                 getBestLift lifter.bench,
                 (if et = EventType.sbd then getBestLift lifter.deadlift else 0))) })) ∧
    validateTotalCalculation lifterTotal430 EventType.sbd = none ∧
    validateTotalCalculation lifterTotal425 EventType.sbd = some
      { rule := "total_calculation", lifterName := some "Testi Nostaja",
        details := WarningDetails.totalMismatch 430 425 EventType.sbd
          (some (150, 100, 180)) } := by
  refine ⟨?_, ?_, ?_⟩
  · intro lifter et
    refine ⟨fun h0 => by simp [validateTotalCalculation, h0], fun h0 heq => ?_, fun h0 hne => ?_⟩
    · have heq' : (if et = EventType.sbd then getBestLift lifter.squat else 0) +
          getBestLift lifter.bench +
          (if et = EventType.sbd then getBestLift lifter.deadlift else 0) = lifter.total := heq
      simp [validateTotalCalculation, h0, heq']
    · have hne' : ¬ ((if et = EventType.sbd then getBestLift lifter.squat else 0) +
          getBestLift lifter.bench +
          (if et = EventType.sbd then getBestLift lifter.deadlift else 0) = lifter.total) := hne
      simp [validateTotalCalculation, expectedTotal, h0, hne']
  · simp [validateTotalCalculation, lifterTotal430, exampleLifter, singleLift, getBestLift,
      lift3ToList]
    norm_num
  · simp [validateTotalCalculation, lifterTotal425, exampleLifter, singleLift, getBestLift,
      lift3ToList]
    norm_num

/-- C5 witness: a lifter whose recorded total is zero gets no warning. -/
theorem validateTotalCalculation_spec_witness :
    validateTotalCalculation (exampleLifter noLift noLift noLift 0) EventType.sbd = none :=
  (validateTotalCalculation_spec.1 (exampleLifter noLift noLift noLift 0) EventType.sbd).1 rfl

/-! ## Claim C8: attempt-cell parsing -/

/-- C8 counterexample: the cell reading "x" is not one of the no-attempt
spellings and carries no strikethrough marker, yet its parsed attempt has
success = false (the code additionally requires a positive parsed weight),
contradicting the claim that success is true unless the cell carries a
strikethrough marker. -/
theorem parseAttempt_claim_counterexample :
    stripWhitespace (jsTrim "x") ≠ "" ∧ stripWhitespace (jsTrim "x") ≠ "-" ∧
    stripWhitespace (jsTrim "x") ≠ "0" ∧
    strContains "x" "line-through" = false ∧
    (parseAttempt (some ⟨"x", "x"⟩)).success = false := by
  refine ⟨by decide, by decide, by decide, by decide, by decide⟩

/-- C8 (amended): a cell whose text (after whitespace removal) is empty,
"-", or "0" parses as weight 0 with success = false; otherwise the weight
is the absolute value of the parsed number (an unparseable cell parsing as
zero) and success holds exactly when the parsed weight is positive and the
cell carries no strikethrough style marker. -/
theorem parseAttempt_spec (c : Cell) :
    ((stripWhitespace (jsTrim c.textContent) = "" ∨
      stripWhitespace (jsTrim c.textContent) = "-" ∨
      stripWhitespace (jsTrim c.textContent) = "0") →
      parseAttempt (some c) = ⟨0, false⟩) ∧
    (¬ (stripWhitespace (jsTrim c.textContent) = "" ∨
        stripWhitespace (jsTrim c.textContent) = "-" ∨
        stripWhitespace (jsTrim c.textContent) = "0") →
      (parseAttempt (some c)).weight =
        |parseNumber (some (stripWhitespace (jsTrim c.textContent)))| ∧
      ((parseAttempt (some c)).success = true ↔
        0 < (parseAttempt (some c)).weight ∧
          strContains c.innerHTML "line-through" = false)) := by
  constructor
  · intro h
    simp [parseAttempt, h]
  · intro h
    refine ⟨?_, ?_⟩
    · simp [parseAttempt, if_neg h]
    · simp [parseAttempt, if_neg h, Bool.and_eq_true, decide_eq_true_eq, Bool.not_eq_true']

/-- C8 witness: the plain "100" cell parses with the absolute parsed
weight. -/
theorem parseAttempt_spec_witness :
    (parseAttempt (some ⟨"100", "100"⟩)).weight = |parseNumber (some "100")| :=
  ((parseAttempt_spec ⟨"100", "100"⟩).2 (by decide)).1

/-! ## Claim C10: parsed attempts never mark a zero weight successful -/

/-- C10: every attempt `parseAttempt` emits satisfies success → weight > 0,
and so does every attempt of a `parseAttempts` triple (including the
zero-filled triple for an undetected lift); these are exactly the attempt
records `parseLifters` stores on lifters. -/
theorem parseAttempt_success_invariant :
    (∀ cell : Option Cell,
      (parseAttempt cell).success = true → 0 < (parseAttempt cell).weight) ∧
    (∀ (cells : List Cell) (startIndex : Option Nat),
      ∀ a ∈ lift3ToList (parseAttempts cells startIndex),
        a.success = true → 0 < a.weight) := by
  have hcell : ∀ cell : Option Cell,
      (parseAttempt cell).success = true → 0 < (parseAttempt cell).weight := by
    intro cell h
    match cell with
    | none => simp [parseAttempt] at h
    | some c =>
      by_cases htext : (stripWhitespace (jsTrim c.textContent) = "" ∨
          stripWhitespace (jsTrim c.textContent) = "-" ∨
          stripWhitespace (jsTrim c.textContent) = "0")
      · simp [parseAttempt, htext] at h
      · simp only [parseAttempt, if_neg htext, Bool.and_eq_true, decide_eq_true_eq] at h
        simp only [parseAttempt, if_neg htext]
        exact h.1
  refine ⟨hcell, ?_⟩
  intro cells si a ha
  match si with
  | none =>
    simp [parseAttempts, lift3ToList] at ha
    rcases ha with rfl | rfl | rfl <;> simp
  | some i =>
    simp only [parseAttempts, lift3ToList, List.mem_cons, List.not_mem_nil, or_false] at ha
    rcases ha with rfl | rfl | rfl <;> exact hcell _

/-- C10 witness: a successful concrete attempt indeed has positive weight. -/
theorem parseAttempt_success_invariant_witness :
    0 < (parseAttempt (some ⟨"100", "100"⟩)).weight :=
  parseAttempt_success_invariant.1 (some ⟨"100", "100"⟩) (by decide)

/-! ## Claim C6: the attempt-progression rule -/

theorem forall_adjPairs_iff_chain {α : Type} (R : α → α → Prop) (l : List α) :
    (∀ p ∈ adjPairs l, R p.1 p.2) ↔ l.Chain' R := by
  induction l with
  | nil => simp [adjPairs]
  | cons a t ih =>
    cases t with
    | nil => simp [adjPairs]
    | cons b t2 =>
      simp only [adjPairs, List.mem_cons, List.chain'_cons]
      constructor
      · intro h
        exact ⟨h (a, b) (Or.inl rfl), ih.mp (fun p hp => h p (Or.inr hp))⟩
      · rintro ⟨hab, hch⟩ p hp
        rcases hp with rfl | hp
        · exact hab
        · exact (ih.mpr hch) p hp

theorem checkLiftProgression_eq_nil_iff (lifterName liftName : String) (s : Lift3) :
    checkLiftProgression lifterName s liftName = [] ↔
      List.Chain' (fun p c : Attempt × Nat => p.1.weight ≤ c.1.weight)
        (successfulNumberedAttempts s) := by
  rw [checkLiftProgression, List.filterMap_eq_nil]
  rw [← forall_adjPairs_iff_chain]
  constructor
  · intro h pc hpc
    have h2 := h pc hpc
    by_cases hlt : pc.2.1.weight < pc.1.1.weight
    · rw [if_pos hlt] at h2
      exact absurd h2 (by simp)
    · exact not_lt.mp hlt
  · intro h pc hpc
    rw [if_neg (not_lt.mpr (h pc hpc))]

theorem successfulNumberedAttempts_map_weight (s : Lift3)
    (hinv : ∀ a ∈ lift3ToList s, a.success = true → 0 < a.weight) :
    (successfulNumberedAttempts s).map (fun p => p.1.weight) = successfulWeights s := by
  obtain ⟨a1, a2, a3⟩ := s
  have hcongr : (numberedAttempts (a1, a2, a3)).filter
        (fun p => p.1.success && decide (0 < p.1.weight)) =
      (numberedAttempts (a1, a2, a3)).filter (fun p => p.1.success) := by
    apply List.filter_congr
    intro p hp
    cases hsucc : p.1.success
    · simp
    · have hmem : p.1 ∈ lift3ToList (a1, a2, a3) := by
        simp only [numberedAttempts, List.mem_cons, List.not_mem_nil, or_false] at hp
        rcases hp with rfl | rfl | rfl <;> simp [lift3ToList]
      simp [decide_eq_true (hinv p.1 hmem hsucc)]
  rw [successfulNumberedAttempts, hcongr]
  cases e1 : a1.success <;> cases e2 : a2.success <;> cases e3 : a3.success <;>
    simp [numberedAttempts, successfulWeights, lift3ToList, List.filter, e1, e2, e3]

theorem checkLiftProgression_nil_iff_pairwise (lifterName liftName : String) (s : Lift3)
    (hinv : ∀ a ∈ lift3ToList s, a.success = true → 0 < a.weight) :
    checkLiftProgression lifterName s liftName = [] ↔
      (successfulWeights s).Pairwise (· ≤ ·) := by
  rw [checkLiftProgression_eq_nil_iff]
  rw [← successfulNumberedAttempts_map_weight s hinv]
  rw [List.pairwise_map]
  have htr : IsTrans (Attempt × Nat) (fun p c : Attempt × Nat => p.1.weight ≤ c.1.weight) :=
    ⟨fun a b c hab hbc => le_trans hab hbc⟩
  exact @List.chain'_iff_pairwise _ _ htr _

/-- C6: for each lift independently, with failed attempts (and, by the
parser invariant of C10, zero-weight attempts) excluded, the rule emits no
warning exactly when the successful attempts' weights are non-decreasing —
equivalently, it warns whenever a later successful attempt is lower than an
earlier one; successful attempts 100/95/110 yield exactly one warning and
100/105/110 yield none. -/
theorem validateAttemptProgression_spec :
    (∀ lifter : Lifter,
      (∀ a ∈ lifterAttempts lifter, a.success = true → 0 < a.weight) →
      (validateAttemptProgression lifter = [] ↔
        (successfulWeights lifter.squat).Pairwise (· ≤ ·) ∧
        (successfulWeights lifter.bench).Pairwise (· ≤ ·) ∧
        (successfulWeights lifter.deadlift).Pairwise (· ≤ ·))) ∧
    (validateAttemptProgression lifterProgressionDrop).length = 1 ∧
    validateAttemptProgression lifterProgressionOk = [] := by
  refine ⟨?_, by decide, by decide⟩
  intro lifter hinv
  have hs : ∀ a ∈ lift3ToList lifter.squat, a.success = true → 0 < a.weight :=
    fun a ha => hinv a (by simp [lifterAttempts, ha])
  have hb : ∀ a ∈ lift3ToList lifter.bench, a.success = true → 0 < a.weight :=
    fun a ha => hinv a (by simp [lifterAttempts, ha])
  have hd : ∀ a ∈ lift3ToList lifter.deadlift, a.success = true → 0 < a.weight :=
    fun a ha => hinv a (by simp [lifterAttempts, ha])
  rw [validateAttemptProgression, List.append_eq_nil, List.append_eq_nil]
  rw [checkLiftProgression_nil_iff_pairwise _ _ _ hs,
    checkLiftProgression_nil_iff_pairwise _ _ _ hb,
    checkLiftProgression_nil_iff_pairwise _ _ _ hd]
  tauto

/-- C6 witness: the monotone example produces no warnings and the 100/95/110
example produces some. -/
theorem validateAttemptProgression_spec_witness :
    validateAttemptProgression lifterProgressionOk = [] ∧
    validateAttemptProgression lifterProgressionDrop ≠ [] := by
  constructor
  · exact (validateAttemptProgression_spec.1 lifterProgressionOk (by decide)).mpr (by decide)
  · intro h
    have h2 := (validateAttemptProgression_spec.1 lifterProgressionDrop (by decide)).mp h
    exact absurd h2.1 (by decide)

/-! ## Claim C7: the equipment split of `parseCompetitionPage` -/

theorem mem_insertEquipmentKey {ks : List Equipment} {x e : Equipment} :
    e ∈ insertEquipmentKey ks x ↔ e ∈ ks ∨ e = x := by
  rw [insertEquipmentKey]
  by_cases h : x ∈ ks
  · rw [if_pos h]
    constructor
    · exact Or.inl
    · rintro (he | rfl)
      · exact he
      · exact h
  · rw [if_neg h]
    simp

theorem mem_equipmentKeys_foldl (L : List Lifter) (ks : List Equipment) (e : Equipment) :
    e ∈ L.foldl (fun ks l => insertEquipmentKey ks l.equipment) ks ↔
      e ∈ ks ∨ ∃ l ∈ L, l.equipment = e := by
  induction L generalizing ks with
  | nil => simp
  | cons x t ih =>
    simp only [List.foldl_cons]
    rw [ih, mem_insertEquipmentKey]
    constructor
    · rintro ((h | rfl) | ⟨l, hl, he⟩)
      · exact Or.inl h
      · exact Or.inr ⟨x, List.mem_cons_self x t, rfl⟩
      · exact Or.inr ⟨l, List.mem_cons_of_mem x hl, he⟩
    · rintro (h | ⟨l, hl, he⟩)
      · exact Or.inl (Or.inl h)
      · rcases List.mem_cons.mp hl with rfl | hl
        · exact Or.inl (Or.inr he.symm)
        · exact Or.inr ⟨l, hl, he⟩

theorem mem_equipmentKeys (L : List Lifter) (e : Equipment) :
    e ∈ equipmentKeys L ↔ ∃ l ∈ L, l.equipment = e := by
  rw [equipmentKeys, mem_equipmentKeys_foldl]
  simp

theorem insertEquipmentKey_nodup {ks : List Equipment} (h : ks.Nodup) (x : Equipment) :
    (insertEquipmentKey ks x).Nodup := by
  rw [insertEquipmentKey]
  by_cases hx : x ∈ ks
  · rwa [if_pos hx]
  · rw [if_neg hx]
    refine List.Nodup.append h (List.nodup_singleton x) ?_
    intro a ha hb
    rw [List.mem_singleton] at hb
    subst hb
    exact hx ha

theorem equipmentKeys_nodup (L : List Lifter) : (equipmentKeys L).Nodup := by
  have aux : ∀ (M : List Lifter) (ks : List Equipment), ks.Nodup →
      (M.foldl (fun ks l => insertEquipmentKey ks l.equipment) ks).Nodup := by
    intro M
    induction M with
    | nil => intro ks h; simpa using h
    | cons x t ih =>
      intro ks h
      simp only [List.foldl_cons]
      exact ih _ (insertEquipmentKey_nodup h _)
  exact aux L [] List.nodup_nil

theorem equipment_nodup_length_le_two (ks : List Equipment) (h : ks.Nodup) :
    ks.length ≤ 2 := by
  rcases ks with _ | ⟨a, ks2⟩
  · simp
  rcases ks2 with _ | ⟨b, ks3⟩
  · simp
  rcases ks3 with _ | ⟨c, t⟩
  · simp
  exfalso
  simp only [List.nodup_cons, List.mem_cons] at h
  cases a <;> cases b <;> cases c <;> simp_all

theorem equipmentKeys_both_length (ks : List Equipment) (h : ks.Nodup)
    (h1 : Equipment.raw ∈ ks) (h2 : Equipment.equipped ∈ ks) : ks.length = 2 := by
  refine le_antisymm (equipment_nodup_length_le_two ks h) ?_
  have hsub : ({Equipment.raw, Equipment.equipped} : Finset Equipment) ⊆ ks.toFinset := by
    intro e he
    simp only [Finset.mem_insert, Finset.mem_singleton] at he
    rcases he with rfl | rfl <;> simp [h1, h2]
  have hcard := Finset.card_le_card hsub
  rw [List.toFinset_card_of_nodup h, Finset.card_pair (by simp)] at hcard
  exact hcard

/-- C7: if the lifters the parser extracted (after the competition-name
equipment override) span both equipment categories, `parseCompetitionPage`
returns exactly two result groups — one per category, each with the id
suffixed by the category key and the name qualified by the equipment
label, carrying that category's lifters; if all lifters share one category
(or there are none) it returns exactly one group with id and name
unchanged and the full lifter list. -/
theorem splitCompetitionByEquipment_spec (comp : Competition)
    (parsedLifters L : List Lifter)
    (hL : L = liftersAfterEquipmentOverride comp.name parsedLifters) :
    ((∃ a ∈ L, a.equipment = Equipment.raw) →
      (∃ b ∈ L, b.equipment = Equipment.equipped) →
      (splitCompetitionByEquipment comp parsedLifters).length = 2 ∧
      ∀ e : Equipment, ∃ res ∈ splitCompetitionByEquipment comp parsedLifters,
        res.competition.id = comp.id ++ "-" ++ e.toKey ∧
        res.competition.name = comp.name ++ " (" ++ e.label ++ ")" ∧
        res.lifters = L.filter (fun l => l.equipment = e)) ∧
    ((∀ a ∈ L, ∀ b ∈ L, a.equipment = b.equipment) →
      ∃ res, splitCompetitionByEquipment comp parsedLifters = [res] ∧
        res.competition.id = comp.id ∧ res.competition.name = comp.name ∧
        res.lifters = L) := by
  have hunf : splitCompetitionByEquipment comp parsedLifters =
      (if (groupByEquipment L).length ≤ 1 then
        [{ competition := { comp with eventType := some (detectEventType L) },
           lifters := L }]
      else (groupByEquipment L).map (fun g =>
        { competition :=
            { comp with
              id := comp.id ++ "-" ++ g.1.toKey,
              name := comp.name ++ " (" ++ g.1.label ++ ")",
              eventType := some (detectEventType L) },
          lifters := g.2 })) := by
    rw [hL]
    rfl
  constructor
  · rintro ⟨a, ha, hae⟩ ⟨b, hb, hbe⟩
    have hkr : Equipment.raw ∈ equipmentKeys L := (mem_equipmentKeys _ _).mpr ⟨a, ha, hae⟩
    have hke : Equipment.equipped ∈ equipmentKeys L :=
      (mem_equipmentKeys _ _).mpr ⟨b, hb, hbe⟩
    have hlen2 : (equipmentKeys L).length = 2 :=
      equipmentKeys_both_length _ (equipmentKeys_nodup _) hkr hke
    have hg2 : (groupByEquipment L).length = 2 := by
      rw [groupByEquipment, List.length_map, hlen2]
    rw [hunf, if_neg (by rw [hg2]; decide)]
    constructor
    · rw [List.length_map, hg2]
    · intro e
      have hke' : e ∈ equipmentKeys L := by
        cases e
        · exact hkr
        · exact hke
      exact ⟨_, List.mem_map_of_mem _ (List.mem_map_of_mem _ hke'), rfl, rfl, rfl⟩
  · intro hsame
    have hk1 : (equipmentKeys L).length ≤ 1 := by
      rcases hk : equipmentKeys L with _ | ⟨e1, _ | ⟨e2, t⟩⟩
      · simp
      · simp
      · exfalso
        have h1 : e1 ∈ equipmentKeys L := by rw [hk]; simp
        have h2 : e2 ∈ equipmentKeys L := by rw [hk]; simp
        obtain ⟨l1, hl1, he1⟩ := (mem_equipmentKeys _ _).mp h1
        obtain ⟨l2, hl2, he2⟩ := (mem_equipmentKeys _ _).mp h2
        have hnd := equipmentKeys_nodup L
        rw [hk] at hnd
        simp only [List.nodup_cons, List.mem_cons] at hnd
        have hne : e1 ≠ e2 := fun hc => hnd.1 (Or.inl hc)
        have heq : e1 = e2 := by
          rw [← he1, ← he2]
          exact hsame l1 hl1 l2 hl2
        exact hne heq
    have hg1 : (groupByEquipment L).length ≤ 1 := by
      rw [groupByEquipment, List.length_map]
      exact hk1
    rw [hunf, if_pos hg1]
    exact ⟨_, rfl, rfl, rfl, rfl⟩

/-- C7 witness: one raw and one equipped lifter produce two groups; the
same pair restricted to a single category would hit the other branch. -/
theorem splitCompetitionByEquipment_spec_witness :
    (splitCompetitionByEquipment exampleCompetition mixedLifters).length = 2 :=
  ((splitCompetitionByEquipment_spec exampleCompetition mixedLifters
      (liftersAfterEquipmentOverride exampleCompetition.name mixedLifters) rfl).1
    (by decide) (by decide)).1

/-! ## Claim C9: weight-class normalization -/

theorem dropWhile_all_false {α : Type} (p : α → Bool) :
    ∀ l : List α, (∀ c ∈ l, p c = false) → l.dropWhile p = l
  | [], _ => rfl
  | a :: l, h => by
    rw [List.dropWhile_cons, h a (List.mem_cons_self a l)]
    simp

theorem jsTrimL_all_not_ws (l : List Char) (h : ∀ c ∈ l, c.isWhitespace = false) :
    jsTrimL l = l := by
  rw [jsTrimL, dropWhile_all_false _ l h,
    dropWhile_all_false _ l.reverse (fun c hc => h c (List.mem_reverse.mp hc)),
    List.reverse_reverse]

theorem removeGenderAgeTokens_id : ∀ l : List Char,
    (∀ c ∈ l, isGenderChar c = false) → removeGenderAgeTokens l = l
  | [], _ => rfl
  | [c], h => by simp [removeGenderAgeTokens]
  | [c, d], h => by simp [removeGenderAgeTokens]
  | c :: d1 :: d2 :: r, h => by
    rw [removeGenderAgeTokens, h c (List.mem_cons_self c _)]
    simp only [Bool.false_and, Bool.false_eq_true, if_false]
    rw [removeGenderAgeTokens_id (d1 :: d2 :: r)
      (fun x hx => h x (List.mem_cons_of_mem c hx))]

theorem takeWhile_append_all {α : Type} (p : α → Bool) :
    ∀ (l t : List α), (∀ c ∈ l, p c = true) →
      (l ++ t).takeWhile p = l ++ t.takeWhile p ∧ (l ++ t).dropWhile p = t.dropWhile p
  | [], t, _ => ⟨rfl, rfl⟩
  | a :: l, t, h => by
    have ha : p a = true := h a (List.mem_cons_self a l)
    have ih := takeWhile_append_all p l t (fun c hc => h c (List.mem_cons_of_mem a hc))
    simp only [List.cons_append, List.takeWhile_cons, List.dropWhile_cons, ha, ih.1, ih.2]
    simp

theorem matchLeadingNumberL_digits (ds : List Char) (hne : ds ≠ [])
    (hdig : ∀ c ∈ ds, c.isDigit = true) :
    matchLeadingNumberL ds = some (ds, false) ∧
    matchLeadingNumberL (ds ++ ['+']) = some (ds, true) := by
  have hemp : ds.isEmpty = false := by
    cases ds with
    | nil => exact absurd rfl hne
    | cons a t => rfl
  have h1 := takeWhile_append_all Char.isDigit ds [] hdig
  simp only [List.append_nil, List.takeWhile_nil, List.dropWhile_nil] at h1
  have h2 := takeWhile_append_all Char.isDigit ds ['+'] hdig
  have hplus : Char.isDigit '+' = false := by decide
  simp only [List.takeWhile_cons, List.dropWhile_cons, hplus] at h2
  constructor
  · simp [matchLeadingNumberL, h1.1, h1.2, hemp]
  · simp [matchLeadingNumberL, h2.1, h2.2, hemp]

/-- C9: a pure digit-run class is prefixed with "-", a digit run with an
explicit "+" suffix is kept as-is, and the stated examples "74" → "-74",
"84+" → "84+", "M74" → "-74" hold. -/
theorem parseWeightClass_spec :
    (∀ ds : List Char, ds ≠ [] → (∀ c ∈ ds, c.isDigit = true) →
      parseWeightClass ⟨ds⟩ = ⟨'-' :: ds⟩ ∧
      parseWeightClass ⟨ds ++ ['+']⟩ = ⟨ds ++ ['+']⟩) ∧
    parseWeightClass "74" = "-74" ∧
    parseWeightClass "84+" = "84+" ∧
    parseWeightClass "M74" = "-74" := by
  refine ⟨?_, by decide, by decide, by decide⟩
  intro ds hne hdig
  have hnotMN : ∀ c ∈ ds, isGenderChar c = false := by
    intro c hc
    have hd := hdig c hc
    rw [isGenderChar]
    by_contra hg
    rw [Bool.not_eq_false] at hg
    simp only [Bool.or_eq_true, beq_iff_eq] at hg
    rcases hg with ((rfl | rfl) | rfl) | rfl <;> exact absurd hd (by decide)
  have hnotWs : ∀ c ∈ ds, c.isWhitespace = false := by
    intro c hc
    have hd := hdig c hc
    by_contra hw
    rw [Bool.not_eq_false] at hw
    rw [Char.isWhitespace] at hw
    simp only [Bool.or_eq_true, decide_eq_true_eq] at hw
    rcases hw with ((rfl | rfl) | rfl) | rfl <;> exact absurd hd (by decide)
  have hmatch := matchLeadingNumberL_digits ds hne hdig
  constructor
  · have hclean : jsTrimL (removeGenderAgeTokens ds) = ds := by
      rw [removeGenderAgeTokens_id ds hnotMN, jsTrimL_all_not_ws ds hnotWs]
    simp only [parseWeightClass, hclean, hmatch.1]
    simp
  · have hnotMN2 : ∀ c ∈ ds ++ ['+'], isGenderChar c = false := by
      intro c hc
      rcases List.mem_append.mp hc with hc | hc
      · exact hnotMN c hc
      · rw [List.mem_singleton] at hc
        subst hc
        decide
    have hnotWs2 : ∀ c ∈ ds ++ ['+'], c.isWhitespace = false := by
      intro c hc
      rcases List.mem_append.mp hc with hc | hc
      · exact hnotWs c hc
      · rw [List.mem_singleton] at hc
        subst hc
        decide
    have hclean : jsTrimL (removeGenderAgeTokens (ds ++ ['+'])) = ds ++ ['+'] := by
      rw [removeGenderAgeTokens_id _ hnotMN2, jsTrimL_all_not_ws _ hnotWs2]
    simp only [parseWeightClass, hclean, hmatch.2]
    simp

/-- C9 witness: the digit run "57" normalizes to "-57". -/
theorem parseWeightClass_spec_witness :
    parseWeightClass ⟨['5', '7']⟩ = ⟨'-' :: ['5', '7']⟩ :=
  (parseWeightClass_spec.1 ['5', '7'] (by decide) (by decide)).1
